import Mathlib

/-!
Verification of `src/unified_deep_sda/siamese_eegnet.py`.

The file embeds, at the level the claims need, the SiameseEEGNet model:

* a shape-level semantics of the layer pipeline (`conv2dShape`, `pool2dShape`,
  `bnShape`, the two permutes and the final squeeze), and of the constructor
  `SiameseEEGNet.__init__` including its error paths;
* a wiring-level semantics of `forward` over abstract module functions
  (`forwardJoint`, `forwardSingle`);
* a real-valued semantics of `LogSoftmax(dim=1)`, the final transpose/squeeze,
  and of `torch.renorm` as used by `Conv2dWithConstraint`.

Machine integers do not occur: Python integers are unbounded, shapes are `Nat`.
-/

/-- A 4-d tensor shape `(n, c, h, w)`: batch, channels, height (dim 2),
width (dim 3).  In this model height carries the electrode axis and width the
time axis once inside the network. -/
structure Shape4 where
  n : Nat
  c : Nat
  h : Nat
  w : Nat
  deriving DecidableEq, Repr

/-- Shape semantics of `nn.Conv2d(inC, outC, (kh, kw), stride=1, padding=(ph, pw))`
applied to a 4-d input: channels must match and each padded spatial extent must
be at least the kernel extent (otherwise the tensor library raises). -/
def conv2dShape (inC outC kh kw ph pw : Nat) (s : Shape4) : Option Shape4 :=
  if s.c = inC ∧ kh ≤ s.h + 2 * ph ∧ kw ≤ s.w + 2 * pw then
    some ⟨s.n, outC, s.h + 2 * ph - kh + 1, s.w + 2 * pw - kw + 1⟩
  else
    none

/-- Shape semantics of `nn.MaxPool2d`/`nn.AvgPool2d` with kernel `(kh, kw)` and
stride `(sh, sw)`, no padding, floor mode (the PyTorch default): the output
extent is `(L - k) / s + 1` and the input extent must be at least the kernel. -/
def pool2dShape (kh kw sh sw : Nat) (s : Shape4) : Option Shape4 :=
  if kh ≤ s.h ∧ kw ≤ s.w then
    some ⟨s.n, s.c, (s.h - kh) / sh + 1, (s.w - kw) / sw + 1⟩
  else
    none

/-- Shape semantics of `nn.BatchNorm2d(nf)`: identity on shapes, but the channel
count must equal `nf`. -/
def bnShape (nf : Nat) (s : Shape4) : Option Shape4 :=
  if s.c = nf then some s else none

/-- Shape of `_transpose_to_b_1_c_0`, i.e. `x.permute(0, 3, 1, 2)`. -/
def transpose_to_b_1_c_0_shape (s : Shape4) : Shape4 :=
  ⟨s.n, s.w, s.c, s.h⟩

/-- Shape of `_transpose_1_0`, i.e. `x.permute(0, 1, 3, 2)`. -/
def transpose_1_0_shape (s : Shape4) : Shape4 :=
  ⟨s.n, s.c, s.w, s.h⟩

/-- Shape semantics of `_squeeze_final_output`: assert dim 3 is 1 and drop it,
then drop dim 2 as well when it is 1.  The assertion failure is `none`. -/
def squeezeShape (s : Shape4) : Option (List Nat) :=
  if s.w = 1 then
    some (if s.h = 1 then [s.n, s.c] else [s.n, s.c, s.h])
  else
    none

/-- Shape semantics of `self.embed` (lines 70-86): permute to `(b, 1, c, t)`,
temporal conv `(1, kernel_length)` padded `(0, kernel_length // 2)`, batch norm,
spatial conv `(in_chans, 1)` with zero padding, batch norm, ELU (shape
preserving), pool `(1, 4)` stride `(1, 4)`. -/
def embedShape (in_chans F1 D kernel_length : Nat) (s : Shape4) : Option Shape4 := do
  let s0 := transpose_to_b_1_c_0_shape s
  let s1 ← conv2dShape 1 F1 1 kernel_length 0 (kernel_length / 2) s0
  let s2 ← bnShape F1 s1
  let s3 ← conv2dShape F1 (F1 * D) in_chans 1 0 0 s2
  let s4 ← bnShape (F1 * D) s3
  pool2dShape 1 4 1 4 s4

/-- Shape semantics of `self.sep_conv` (lines 88-97): dropout (shape
preserving), depthwise conv `(1, 16)` padded `(0, 8)`, pointwise conv `(1, 1)`,
batch norm, ELU, pool `(1, 8)` stride `(1, 8)`. -/
def sepConvShape (F1 D F2 : Nat) (s : Shape4) : Option Shape4 := do
  let s1 ← conv2dShape (F1 * D) (F1 * D) 1 16 0 8 s
  let s2 ← conv2dShape (F1 * D) F2 1 1 0 0 s1
  let s3 ← bnShape F2 s2
  pool2dShape 1 8 1 8 s3

/-- Shape semantics of `self.cls` (lines 108-116): dropout (shape preserving),
conv `(n_out_virtual_chans, final_conv_length)` with bias and no padding,
LogSoftmax over dim 1 (shape preserving), `_transpose_1_0`, and
`_squeeze_final_output`. -/
def clsShape (F2 n_classes n_out_virtual_chans final_conv_length : Nat)
    (s : Shape4) : Option (List Nat) := do
  let s1 ← conv2dShape F2 n_classes n_out_virtual_chans final_conv_length 0 0 s
  squeezeShape (transpose_1_0_shape s1)

/-- The `final_conv_length` constructor argument: the string `'auto'` or an
integer. -/
inductive FinalConvLength where
  | auto : FinalConvLength
  | fixed (n : Nat) : FinalConvLength
  deriving DecidableEq, Repr

/-- Resolution of `final_conv_length` by the constructor (lines 103-105): the
string `'auto'` is replaced by dim 3 (`n_out_time`) of the sample forward
pass's output, an explicit integer is kept. -/
def resolveFinalConvLength (fcl : FinalConvLength) (n_out_time : Nat) : Nat :=
  match fcl with
  | FinalConvLength.auto => n_out_time
  | FinalConvLength.fixed n => n

/-- The data of a successfully constructed `SiameseEEGNet` that the claims
refer to: the stored hyperparameters, the resolved `final_conv_length`, the
measured `n_out_virtual_chans`, the kernel of the classifier convolution
(line 110) and the `max_norm` passed to the spatial `Conv2dWithConstraint`
(line 81, the Python literal `1`). -/
structure Model where
  in_chans : Nat
  n_classes : Nat
  F1 : Nat
  D : Nat
  F2 : Nat
  kernel_length : Nat
  pool_mode : String
  final_conv_length : Nat
  input_time_length : Option Nat
  n_out_virtual_chans : Nat
  cls_kernel_h : Nat
  cls_kernel_w : Nat
  spatial_conv_max_norm : Nat
  deriving DecidableEq, Repr

namespace SiameseEEGNet

/-- Constructor semantics of `SiameseEEGNet.__init__` (lines 42-119), at shape
level.  In source order:

* line 56-57: `if final_conv_length == 'auto': assert input_time_length is not None`;
* line 67: `dict(max=..., mean=...)[pool_mode]` raises `KeyError` for any other string;
* lines 70-97: building the modules; creating a `Conv2d` whose weight has zero
  fan-in (a zero kernel extent) or zero `groups` fails during weight
  initialisation, which requires `kernel_length >= 1`, `in_chans >= 1`,
  `F1 >= 1` and `F1 * D >= 1`;
* lines 99-100: the sample forward pass on
  `np.ones((1, in_chans, input_time_length, 1))`; `np.ones` raises `TypeError`
  when `input_time_length` is `None`, and the pass itself can fail on a shape
  error;
* lines 101-105: `n_out_virtual_chans` is dim 2 of the sample output, and when
  `final_conv_length == 'auto'` it is replaced by dim 3 of the sample output;
* line 110: the classifier `Conv2d` with kernel
  `(n_out_virtual_chans, final_conv_length)`; its weight initialisation needs
  a positive fan-in `F2 * n_out_virtual_chans * final_conv_length`.

The unused `third_kernel_size` and the shape-irrelevant `drop_prob` are not
modelled. -/
def mk (in_chans n_classes : Nat) (final_conv_length : FinalConvLength)
    (input_time_length : Option Nat) (pool_mode : String)
    (F1 D F2 kernel_length : Nat) : Except String Model :=
  if final_conv_length = FinalConvLength.auto ∧ input_time_length = none then
    Except.error "AssertionError"
  else if ¬ (pool_mode = "max" ∨ pool_mode = "mean") then
    Except.error "KeyError"
  else if ¬ (0 < kernel_length ∧ 0 < in_chans ∧ 0 < F1 ∧ 0 < F1 * D) then
    Except.error "ValueError: zero kernel extent or zero groups"
  else
    match input_time_length with
    | none => Except.error "TypeError: NoneType cannot be interpreted as an integer"
    | some T =>
      match (embedShape in_chans F1 D kernel_length ⟨1, in_chans, T, 1⟩).bind
          (sepConvShape F1 D F2) with
      | none => Except.error "RuntimeError: shape error in sample forward pass"
      | some out =>
        if 0 < F2 * out.h * resolveFinalConvLength final_conv_length out.w then
          Except.ok
            ⟨in_chans, n_classes, F1, D, F2, kernel_length, pool_mode,
              resolveFinalConvLength final_conv_length out.w,
              some T, out.h, out.h,
              resolveFinalConvLength final_conv_length out.w, 1⟩
        else
          Except.error "ZeroDivisionError: zero fan-in in classifier conv"

end SiameseEEGNet

/-- Shape of the stream slice `x[:, i, :, :, None]` (lines 128-129) of a 5-d
input of shape `(b, s, c, t)`: dim 1 is indexed away and a trailing singleton
axis is appended, giving `(b, c, t, 1)` independently of the stream index
`i`. -/
def streamSliceShape (b s c t i : Nat) : Shape4 :=
  ⟨b, c, t, 1⟩

/-- Shape semantics of the classifier path `cls(sep_conv(embed(x)))` used by
the single-stream mode (lines 122-125) and, on the target slice, by the joint
mode (line 142). -/
def singleForwardShape (m : Model) (s : Shape4) : Option (List Nat) :=
  ((embedShape m.in_chans m.F1 m.D m.kernel_length s).bind
    (sepConvShape m.F1 m.D m.F2)).bind
    (clsShape m.F2 m.n_classes m.n_out_virtual_chans m.final_conv_length)

/-- A real-valued 4-d tensor of shape `(b, c, h, w)`. -/
def Tensor4 (b c h w : Nat) : Type :=
  Fin b → Fin c → Fin h → Fin w → ℝ

/-- A real-valued 5-d tensor of shape `(b, s, c, t)`: batch, stream, electrode
channel, time.  The joint forward mode takes such an input with `s = 2`. -/
def Tensor5 (b s c t : Nat) : Type :=
  Fin b → Fin s → Fin c → Fin t → ℝ

/-- The stream slice `x[:, i, :, :, None]` (lines 128-129): dim 1 is indexed
at the stream `i` and a trailing singleton axis is appended. -/
def sliceStream {b s c t : Nat} (x : Tensor5 b s c t) (i : Fin s) :
    Tensor4 b c t 1 :=
  fun n ch ti _ => x n i ch ti

/-- The three trained modules of the network as functions on values, as used
by `forward` (lines 121-144).  Their internals are irrelevant to the wiring
claims, so the embedding and separable-convolution outputs have abstract types
`E` and `S`, and the classifier output has abstract type `C`. -/
structure SiameseModules (b c t : Nat) (E S C : Type) where
  embed : Tensor4 b c t 1 → E
  sep_conv : E → S
  cls : S → C

/-- A value of the dict returned by the joint forward mode: an embedding or a
classifier output. -/
inductive DictVal (E C : Type) where
  | emb (e : E)
  | cls (y : C)

namespace SiameseEEGNet

/-- The `forward` branch taken when `target_finetune_cls` is true
(lines 122-125): `cls(sep_conv(embed(x)))`.  The `setname` argument is
accepted and ignored, as in the source. -/
def forwardSingle {b c t : Nat} {E S C : Type} (m : SiameseModules b c t E S C)
    (x : Tensor4 b c t 1) (setname : String) : C :=
  m.cls (m.sep_conv (m.embed x))

/-- The `forward` branch taken when `target_finetune_cls` is false
(lines 126-144): slice the two streams, embed each, classify the target
embedding, and return the dict in source order.  The `setname` argument is
accepted and ignored (the commented-out code branching on it is dead). -/
def forwardJoint {b c t : Nat} {E S C : Type} (m : SiameseModules b c t E S C)
    (x : Tensor5 b 2 c t) (setname : String) : List (String × DictVal E C) :=
  let target := sliceStream x 0
  let source := sliceStream x 1
  let target_embedding := m.embed target
  let source_embedding := m.embed source
  let cls := m.cls (m.sep_conv target_embedding)
  [("target_embedding", DictVal.emb target_embedding),
   ("source_embedding", DictVal.emb source_embedding),
   ("source_cls", DictVal.cls cls)]

end SiameseEEGNet

/-- Value semantics of `nn.LogSoftmax(dim=1)` (line 111): each entry minus the
logarithm of the sum of exponentials along the channel dimension at the same
batch/height/width position. -/
noncomputable def logSoftmaxDim1 {b c h w : Nat} (z : Tensor4 b c h w) :
    Tensor4 b c h w :=
  fun n k i j => z n k i j - Real.log (∑ q, Real.exp (z n q i j))

/-- Value semantics of `_transpose_1_0` (lines 151-152), `x.permute(0, 1, 3, 2)`. -/
def transpose_1_0_val {b c h w : Nat} (z : Tensor4 b c h w) : Tensor4 b c w h :=
  fun n k j i => z n k i j

/-- The possible results of `_squeeze_final_output`: a 3-d tensor when the
time dimension is kept, a 2-d tensor when it is also squeezed away. -/
inductive SqueezedTensor (b c : Nat) where
  | dim3 (d : Nat) (y : Fin b → Fin c → Fin d → ℝ)
  | dim2 (y : Fin b → Fin c → ℝ)

/-- Value semantics of `_squeeze_final_output` (lines 155-166): assert dim 3
is 1 (`none` models the `AssertionError`), index it away, and index dim 2 away
as well when it is 1. -/
def squeeze_final_output_val {b c h w : Nat} (z : Tensor4 b c h w) :
    Option (SqueezedTensor b c) :=
  if hw : w = 1 then
    if hh : h = 1 then
      some (SqueezedTensor.dim2
        (fun n k => z n k (Fin.cast hh.symm 0) (Fin.cast hw.symm 0)))
    else
      some (SqueezedTensor.dim3 h (fun n k i => z n k i (Fin.cast hw.symm 0)))
  else
    none

/-- Value semantics of `self.cls` (lines 108-116) with the dropout layer and
the classifier convolution abstracted as functions: dropout, convolution,
LogSoftmax over dim 1, `_transpose_1_0`, `_squeeze_final_output`. -/
noncomputable def clsVal {b f2 h w nc h2 w2 : Nat}
    (dropout : Tensor4 b f2 h w → Tensor4 b f2 h w)
    (conv : Tensor4 b f2 h w → Tensor4 b nc h2 w2)
    (x : Tensor4 b f2 h w) : Option (SqueezedTensor b nc) :=
  squeeze_final_output_val (transpose_1_0_val (logSoftmaxDim1 (conv (dropout x))))

/-- A vector of class log-probabilities: every entry is nonpositive and the
exponentials of the entries sum to 1. -/
def IsLogProbVec {c : Nat} (v : Fin c → ℝ) : Prop :=
  (∀ k, v k ≤ 0) ∧ (∑ k, Real.exp (v k)) = 1

/-- Every class vector of a squeezed tensor is a log-probability vector. -/
def SqueezedTensor.IsLogProb {b c : Nat} : SqueezedTensor b c → Prop
  | SqueezedTensor.dim3 _ y => ∀ n i, IsLogProbVec (fun k => y n k i)
  | SqueezedTensor.dim2 y => ∀ n, IsLogProbVec (fun k => y n k)

/-- The Euclidean norm of an output-channel slice of a convolution weight,
with the slice flattened to `k` entries. -/
noncomputable def l2norm {k : Nat} (v : Fin k → ℝ) : ℝ :=
  Real.sqrt (∑ j, v j ^ 2)

/-- Value semantics of `th.renorm(w, p=2, dim=0, maxnorm)` (line 19): each
slice along dim 0 whose L2 norm is within `maxnorm` is unchanged, and any
other slice is rescaled to have norm exactly `maxnorm`. -/
noncomputable def renorm {oc k : Nat} (maxnorm : ℝ) (wgt : Fin oc → Fin k → ℝ) :
    Fin oc → Fin k → ℝ :=
  fun i =>
    if l2norm (wgt i) ≤ maxnorm then wgt i
    else fun j => maxnorm / l2norm (wgt i) * wgt i j

/-- The state of a `Conv2dWithConstraint` module (lines 13-20): the stored
weight, each output-channel slice flattened to `k` entries, and the `max_norm`
bound. -/
structure Conv2dWithConstraint (oc k : Nat) where
  weight : Fin oc → Fin k → ℝ
  max_norm : ℝ

/-- Semantics of `Conv2dWithConstraint.forward` (lines 18-20): the stored
weight is first replaced by its renormalisation (the in-place
`self.weight.data = th.renorm(...)`), then the ordinary 2-d convolution,
abstracted as `conv2d`, is applied with the renormalised weight.  The result
is the updated module state together with the layer output. -/
noncomputable def Conv2dWithConstraint.forward {oc k : Nat} {X Y : Type}
    (m : Conv2dWithConstraint oc k)
    (conv2d : (Fin oc → Fin k → ℝ) → X → Y) (x : X) :
    Conv2dWithConstraint oc k × Y :=
  (⟨renorm m.max_norm m.weight, m.max_norm⟩,
   conv2d (renorm m.max_norm m.weight) x)

/-- Evaluation of the embedding pipeline's shape under the default
hyperparameters `F1 = 8`, `D = 2`, `kernel_length = 64` on an input of shape
`(b, c, t, 1)`: it succeeds exactly when `c ≥ 1` and `t ≥ 3`, with output
`(b, 16, 1, (t + 1) / 4)`. -/
theorem embedShape_default_eq (b c t : Nat) :
    embedShape c 8 2 64 ⟨b, c, t, 1⟩
      = if 0 < c ∧ 3 ≤ t then some ⟨b, 16, 1, (t + 1) / 4⟩ else none := by
  simp only [embedShape, transpose_to_b_1_c_0_shape, conv2dShape, bnShape, pool2dShape]
  split_ifs <;>
    simp_all [Option.bind, Shape4.mk.injEq] <;>
    omega

/-- Evaluation of the separable-convolution pipeline's shape under the default
hyperparameters on an input of shape `(b, 16, 1, L)`: it succeeds exactly when
`L ≥ 7`, with output `(b, 16, 1, (L + 1) / 8)`. -/
theorem sepConvShape_default_eq (b L : Nat) :
    sepConvShape 8 2 16 ⟨b, 16, 1, L⟩
      = if 7 ≤ L then some ⟨b, 16, 1, (L + 1) / 8⟩ else none := by
  simp only [sepConvShape, conv2dShape, bnShape, pool2dShape]
  split_ifs <;>
    simp_all [Option.bind, Shape4.mk.injEq] <;>
    omega

/-- Evaluation of the sample forward pass `sep_conv(embed(·))` under the
default hyperparameters on an input of shape `(b, c, t, 1)`: it succeeds
exactly when `c ≥ 1` and `t ≥ 27`, with output
`(b, 16, 1, ((t + 1) / 4 + 1) / 8)`. -/
theorem sepEmbed_default_eq (b c t : Nat) :
    (embedShape c 8 2 64 ⟨b, c, t, 1⟩).bind (sepConvShape 8 2 16)
      = if 0 < c ∧ 27 ≤ t then some ⟨b, 16, 1, ((t + 1) / 4 + 1) / 8⟩
        else none := by
  rw [embedShape_default_eq]
  by_cases h : 0 < c ∧ 3 ≤ t
  · rw [if_pos h, Option.some_bind, sepConvShape_default_eq]
    by_cases h7 : 7 ≤ (t + 1) / 4
    · rw [if_pos h7, if_pos ⟨h.1, by omega⟩]
    · rw [if_neg h7, if_neg (by omega)]
  · rw [if_neg h, Option.none_bind, if_neg (by omega)]

/-- For any hyperparameters, a successful pass of `sep_conv(embed(·))` on an
input of shape `(b, c, t, 1)` has height 1: the spatial convolution's kernel
`(in_chans, 1)` with zero padding collapses the electrode axis and every later
layer has kernel height 1. -/
theorem sepEmbed_h_one (c F1 D F2 kl b t : Nat) (out : Shape4)
    (h : (embedShape c F1 D kl ⟨b, c, t, 1⟩).bind (sepConvShape F1 D F2)
          = some out) :
    out.h = 1 := by
  simp only [embedShape, sepConvShape, transpose_to_b_1_c_0_shape, conv2dShape,
    bnShape, pool2dShape, Option.bind_eq_bind', Option.bind_eq_some,
    Option.ite_none_right_eq_some, Option.some.injEq, true_and] at h
  obtain ⟨a, ⟨a1, ⟨⟨h11, h12⟩, rfl⟩, a2, ⟨h21, rfl⟩, a3, ⟨⟨h31, h32, h33⟩, rfl⟩,
    a4, ⟨h41, rfl⟩, ⟨h51, h52⟩, rfl⟩, b1, ⟨⟨h61, h62, h63⟩, rfl⟩,
    b2, ⟨⟨h71, h72, h73⟩, rfl⟩, b3, ⟨h81, rfl⟩, ⟨h91, h92⟩, rfl⟩ := h
  simp_all

/-- Inversion of a successful construction: the stored `Model` is determined by
the arguments and the sample forward pass. -/
theorem mk_ok_inv (c nC : Nat) (fcl : FinalConvLength) (itl : Option Nat)
    (pm : String) (F1 D F2 kl : Nat) (m : Model)
    (h : SiameseEEGNet.mk c nC fcl itl pm F1 D F2 kl = Except.ok m) :
    ∃ T out,
      itl = some T ∧
      (embedShape c F1 D kl ⟨1, c, T, 1⟩).bind (sepConvShape F1 D F2)
        = some out ∧
      m = ⟨c, nC, F1, D, F2, kl, pm, resolveFinalConvLength fcl out.w,
            some T, out.h, out.h, resolveFinalConvLength fcl out.w, 1⟩ ∧
      0 < F2 * out.h * resolveFinalConvLength fcl out.w := by
  cases itl with
  | none =>
    unfold SiameseEEGNet.mk at h
    split_ifs at h <;> cases h
  | some T =>
    unfold SiameseEEGNet.mk at h
    rw [if_neg (by simp)] at h
    by_cases hpm : pm = "max" ∨ pm = "mean"
    case neg => rw [if_pos hpm] at h; cases h
    rw [if_neg (not_not_intro hpm)] at h
    by_cases hker : 0 < kl ∧ 0 < c ∧ 0 < F1 ∧ 0 < F1 * D
    case neg => rw [if_pos hker] at h; cases h
    rw [if_neg (not_not_intro hker)] at h
    refine ⟨T, ?_⟩
    split at h
    · cases h
    · rename_i T' hT'
      cases hT'
      split at h
      · cases h
      · rename_i out hout
        split_ifs at h with hpos
        cases h
        exact ⟨out, rfl, hout, rfl, hpos⟩

/-- Subtracting the log-sum-exp of a nonempty vector yields a vector of class
log-probabilities. -/
theorem logSoftmax_isLogProbVec {c : Nat} (hc : 0 < c) (v : Fin c → ℝ) :
    IsLogProbVec (fun k => v k - Real.log (∑ q, Real.exp (v q))) := by
  haveI : Nonempty (Fin c) := Fin.pos_iff_nonempty.mp hc
  have hpos : 0 < ∑ q, Real.exp (v q) :=
    Finset.sum_pos (fun q _ => Real.exp_pos (v q)) Finset.univ_nonempty
  constructor
  · intro k
    show v k - Real.log (∑ q, Real.exp (v q)) ≤ 0
    have hle : Real.exp (v k) ≤ ∑ q, Real.exp (v q) :=
      Finset.single_le_sum (fun q _ => (Real.exp_pos (v q)).le) (Finset.mem_univ k)
    have := (Real.le_log_iff_exp_le hpos).mpr hle
    linarith
  · have hterm : ∀ k : Fin c, Real.exp (v k - Real.log (∑ q, Real.exp (v q)))
        = Real.exp (v k) / ∑ q, Real.exp (v q) := by
      intro k
      rw [Real.exp_sub, Real.exp_log hpos]
    calc (∑ k, Real.exp (v k - Real.log (∑ q, Real.exp (v q))))
        = ∑ k, Real.exp (v k) / ∑ q, Real.exp (v q) :=
          Finset.sum_congr rfl (fun k _ => hterm k)
      _ = (∑ k, Real.exp (v k)) / ∑ q, Real.exp (v q) := by
          rw [Finset.sum_div]
      _ = 1 := div_self (ne_of_gt hpos)

/-- Scaling every entry of a vector scales its Euclidean norm by the absolute
value of the factor. -/
theorem l2norm_const_mul {k : Nat} (a : ℝ) (v : Fin k → ℝ) :
    l2norm (fun j => a * v j) = |a| * l2norm v := by
  unfold l2norm
  simp only [mul_pow]
  rw [← Finset.mul_sum, Real.sqrt_mul (sq_nonneg a), Real.sqrt_sq_eq_abs]

/-- After `th.renorm` with a nonnegative bound, every slice has norm within
the bound. -/
theorem l2norm_renorm_le {oc k : Nat} (maxnorm : ℝ) (h : 0 ≤ maxnorm)
    (wgt : Fin oc → Fin k → ℝ) (i : Fin oc) :
    l2norm (renorm maxnorm wgt i) ≤ maxnorm := by
  unfold renorm
  split_ifs with hle
  · exact hle
  · push_neg at hle
    have hN : 0 < l2norm (wgt i) := lt_of_le_of_lt h hle
    rw [l2norm_const_mul, abs_of_nonneg (div_nonneg h hN.le),
      div_mul_cancel₀ _ (ne_of_gt hN)]

/-- Construction succeeds given a valid pool mode, positive kernel and group
parameters, and a shape-valid sample forward pass with a positive classifier
fan-in. -/
theorem mk_ok_of (c nC : Nat) (fcl : FinalConvLength) (T : Nat) (pm : String)
    (F1 D F2 kl : Nat) (out : Shape4)
    (hpm : pm = "max" ∨ pm = "mean")
    (hker : 0 < kl ∧ 0 < c ∧ 0 < F1 ∧ 0 < F1 * D)
    (hout : (embedShape c F1 D kl ⟨1, c, T, 1⟩).bind (sepConvShape F1 D F2)
        = some out)
    (hpos : 0 < F2 * out.h * resolveFinalConvLength fcl out.w) :
    SiameseEEGNet.mk c nC fcl (some T) pm F1 D F2 kl
      = Except.ok ⟨c, nC, F1, D, F2, kl, pm, resolveFinalConvLength fcl out.w,
          some T, out.h, out.h, resolveFinalConvLength fcl out.w, 1⟩ := by
  unfold SiameseEEGNet.mk
  rw [if_neg (by simp), if_neg (not_not_intro hpm), if_neg (not_not_intro hker)]
  simp only [hout]
  rw [if_pos hpos]

/-- C3: in joint mode (`target_finetune_cls` left false), `forward` returns a
dict with exactly the keys `target_embedding`, `source_embedding` and
`source_cls` in that order, where `target_embedding` is `embed` applied to
stream 0 (`x[:, 0, :, :, None]`) and `source_embedding` is `embed` applied to
stream 1 (`x[:, 1, :, :, None]`), for every input of shape
`(batch, 2, in_chans, time)` and every choice of module functions. -/
theorem C3_joint_mode_dict {b c t : Nat} {E S C : Type}
    (m : SiameseModules b c t E S C) (x : Tensor5 b 2 c t) (setname : String) :
    (SiameseEEGNet.forwardJoint m x setname).map Prod.fst
        = ["target_embedding", "source_embedding", "source_cls"]
    ∧ List.lookup "target_embedding" (SiameseEEGNet.forwardJoint m x setname)
        = some (DictVal.emb (m.embed (sliceStream x 0)))
    ∧ List.lookup "source_embedding" (SiameseEEGNet.forwardJoint m x setname)
        = some (DictVal.emb (m.embed (sliceStream x 1))) := by
  refine ⟨rfl, ?_, ?_⟩ <;> rfl

/-- C8: in joint mode the value stored under the key `source_cls` is computed
from the target stream (stream 0), i.e. it is the classification of the
returned `target_embedding`, not of the source embedding (line 142 of the
source applies `cls` to `target_embedding`). -/
theorem C8_source_cls_uses_target_stream {b c t : Nat} {E S C : Type}
    (m : SiameseModules b c t E S C) (x : Tensor5 b 2 c t) (setname : String) :
    List.lookup "source_cls" (SiameseEEGNet.forwardJoint m x setname)
      = some (DictVal.cls (m.cls (m.sep_conv (m.embed (sliceStream x 0))))) := by
  rfl

/-- C4: in single-stream mode (`target_finetune_cls=True`), `forward` returns
`cls(sep_conv(embed(x)))`, and when `cls` is the source pipeline
dropout-conv-LogSoftmax-transpose-squeeze (lines 108-116), every class vector
of the result has nonpositive entries whose exponentials sum to 1, for any
positive number of classes, any module internals and any input. -/
theorem C4_single_mode_log_probabilities {b c t f2 h w nc h2 w2 : Nat}
    {E : Type} (hnc : 0 < nc)
    (embed : Tensor4 b c t 1 → E) (sep : E → Tensor4 b f2 h w)
    (dropout : Tensor4 b f2 h w → Tensor4 b f2 h w)
    (conv : Tensor4 b f2 h w → Tensor4 b nc h2 w2)
    (x : Tensor4 b c t 1) (setname : String) :
    SiameseEEGNet.forwardSingle ⟨embed, sep, clsVal dropout conv⟩ x setname
        = clsVal dropout conv (sep (embed x))
    ∧ ∀ y ∈ SiameseEEGNet.forwardSingle ⟨embed, sep, clsVal dropout conv⟩
        x setname, y.IsLogProb := by
  refine ⟨rfl, ?_⟩
  intro y hy
  unfold SiameseEEGNet.forwardSingle clsVal squeeze_final_output_val at hy
  split_ifs at hy with hw1 hh1
  · rw [Option.mem_def, Option.some.injEq] at hy
    subst hy
    intro n
    exact logSoftmax_isLogProbVec hnc _
  · rw [Option.mem_def, Option.some.injEq] at hy
    subst hy
    intro n i
    exact logSoftmax_isLogProbVec hnc _
  · cases hy

/-- C4 witness: concrete instance with two classes and all-zero tensors. -/
theorem C4_witness :
    SiameseEEGNet.forwardSingle
        (⟨id, id, clsVal (id : Tensor4 1 1 1 1 → Tensor4 1 1 1 1)
            ((fun _ => fun _ _ _ _ => (0 : ℝ)) :
              Tensor4 1 1 1 1 → Tensor4 1 2 1 1)⟩ :
          SiameseModules 1 1 1 (Tensor4 1 1 1 1) (Tensor4 1 1 1 1)
            (Option (SqueezedTensor 1 2)))
        ((fun _ _ _ _ => (0 : ℝ)) : Tensor4 1 1 1 1) "test"
      = clsVal (id : Tensor4 1 1 1 1 → Tensor4 1 1 1 1)
          ((fun _ => fun _ _ _ _ => (0 : ℝ)) :
            Tensor4 1 1 1 1 → Tensor4 1 2 1 1)
          (id (id ((fun _ _ _ _ => (0 : ℝ)) : Tensor4 1 1 1 1)))
    ∧ ∀ y ∈ SiameseEEGNet.forwardSingle
        (⟨id, id, clsVal (id : Tensor4 1 1 1 1 → Tensor4 1 1 1 1)
            ((fun _ => fun _ _ _ _ => (0 : ℝ)) :
              Tensor4 1 1 1 1 → Tensor4 1 2 1 1)⟩ :
          SiameseModules 1 1 1 (Tensor4 1 1 1 1) (Tensor4 1 1 1 1)
            (Option (SqueezedTensor 1 2)))
        ((fun _ _ _ _ => (0 : ℝ)) : Tensor4 1 1 1 1) "test", y.IsLogProb :=
  C4_single_mode_log_probabilities (by decide)
    (id : Tensor4 1 1 1 1 → Tensor4 1 1 1 1)
    (id : Tensor4 1 1 1 1 → Tensor4 1 1 1 1)
    (id : Tensor4 1 1 1 1 → Tensor4 1 1 1 1)
    ((fun _ => fun _ _ _ _ => (0 : ℝ)) : Tensor4 1 1 1 1 → Tensor4 1 2 1 1)
    ((fun _ _ _ _ => (0 : ℝ)) : Tensor4 1 1 1 1) "test"

/-- C6: every call of `Conv2dWithConstraint.forward` applies the convolution
with the renormalised weight and stores that weight back, so after the forward
pass every output-channel slice of the stored weight has L2 norm at most
`max_norm` (whenever `max_norm` is nonnegative, in particular for the spatial
convolution's `max_norm=1`); and every successfully constructed model records
`max_norm = 1` for its spatial convolution (line 81). -/
theorem C6_constraint_conv_renorm {oc k : Nat} {X Y : Type}
    (m : Conv2dWithConstraint oc k)
    (conv2d : (Fin oc → Fin k → ℝ) → X → Y) (x : X)
    (h : 0 ≤ m.max_norm) :
    (m.forward conv2d x).2 = conv2d (renorm m.max_norm m.weight) x
    ∧ (m.forward conv2d x).1.weight = renorm m.max_norm m.weight
    ∧ (∀ i, l2norm ((m.forward conv2d x).1.weight i) ≤ m.max_norm)
    ∧ ∀ (c nC : Nat) (fcl : FinalConvLength) (itl : Option Nat) (pm : String)
        (F1 D F2 kl : Nat) (mo : Model),
        SiameseEEGNet.mk c nC fcl itl pm F1 D F2 kl = Except.ok mo →
        mo.spatial_conv_max_norm = 1 := by
  refine ⟨rfl, rfl, ?_, ?_⟩
  · intro i
    exact l2norm_renorm_le m.max_norm h m.weight i
  · intro c nC fcl itl pm F1 D F2 kl mo hmk
    obtain ⟨T, out, _, _, rfl, _⟩ := mk_ok_inv c nC fcl itl pm F1 D F2 kl mo hmk
    rfl

/-- C6 witness: a single-channel weight of norm 2 constrained by
`max_norm = 1`. -/
theorem C6_witness :
    ((⟨fun _ _ => (2 : ℝ), 1⟩ : Conv2dWithConstraint 1 1).forward
        (fun _ _ => ()) ()).2
      = (fun _ (_ : Unit) => ()) (renorm (1 : ℝ) ((fun _ _ => (2 : ℝ)) : Fin 1 → Fin 1 → ℝ)) ()
    ∧ ((⟨fun _ _ => (2 : ℝ), 1⟩ : Conv2dWithConstraint 1 1).forward
        (fun _ _ => ()) ()).1.weight = renorm (1 : ℝ) ((fun _ _ => (2 : ℝ)) : Fin 1 → Fin 1 → ℝ)
    ∧ (∀ i, l2norm (((⟨fun _ _ => (2 : ℝ), 1⟩ : Conv2dWithConstraint 1 1).forward
        (fun _ _ => ()) ()).1.weight i) ≤ 1)
    ∧ ∀ (c nC : Nat) (fcl : FinalConvLength) (itl : Option Nat) (pm : String)
        (F1 D F2 kl : Nat) (mo : Model),
        SiameseEEGNet.mk c nC fcl itl pm F1 D F2 kl = Except.ok mo →
        mo.spatial_conv_max_norm = 1 :=
  C6_constraint_conv_renorm ⟨fun _ _ => (2 : ℝ), 1⟩ (fun _ _ => ()) ()
    (by norm_num)

/-- Evaluation of the classifier pipeline's shape on its intended input: batch
`b`, `F2 = 16` channels, one virtual channel, time extent equal to the
classifier kernel's time extent `W`. -/
theorem clsShape_eval (b nC W : Nat) :
    clsShape 16 nC 1 W ⟨b, 16, 1, W⟩ = some [b, nC] := by
  have h1 : conv2dShape 16 nC 1 W 0 0 ⟨b, 16, 1, W⟩ = some ⟨b, nC, 1, 1⟩ := by
    show (if 16 = 16 ∧ 1 ≤ 1 + 2 * 0 ∧ W ≤ W + 2 * 0 then
        some (⟨b, nC, 1 + 2 * 0 - 1 + 1, W + 2 * 0 - W + 1⟩ : Shape4)
      else none) = some ⟨b, nC, 1, 1⟩
    rw [if_pos ⟨rfl, by omega, by omega⟩]
    simp only [Option.some.injEq, Shape4.mk.injEq, true_and]
    omega
  unfold clsShape
  rw [h1]
  rfl

/-- C1 counterexample: with an integer `final_conv_length` and
`input_time_length=None`, construction fails (at the sample forward pass,
`np.ones((1, in_chans, None, 1))`), although the claim says it succeeds. -/
theorem C1_counterexample_fixed_none_fails :
    SiameseEEGNet.mk 3 2 (FinalConvLength.fixed 5) none "mean" 8 2 16 64
      = Except.error "TypeError: NoneType cannot be interpreted as an integer" := by
  rfl

/-- C1 (amended): under the default hyperparameters and `in_chans ≥ 1`,
construction succeeds exactly when `input_time_length` is an integer `T ≥ 27`
(so that the unconditional sample forward pass is shape-valid) and any
explicitly supplied `final_conv_length` is at least 1; in particular an
integer `final_conv_length` does not make `input_time_length` optional, and
when `final_conv_length='auto'` a `None` `input_time_length` fails the
assert. -/
theorem C1_amended_success_iff (c nC : Nat) (fcl : FinalConvLength)
    (itl : Option Nat) (hc : 0 < c) :
    (∃ m, SiameseEEGNet.mk c nC fcl itl "mean" 8 2 16 64 = Except.ok m)
      ↔ (∃ T, itl = some T ∧ 27 ≤ T)
        ∧ ∀ k, fcl = FinalConvLength.fixed k → 1 ≤ k := by
  constructor
  · rintro ⟨m, hm⟩
    obtain ⟨T, out, rfl, hout, _, hpos⟩ := mk_ok_inv _ _ _ _ _ _ _ _ _ _ hm
    rw [sepEmbed_default_eq] at hout
    by_cases hcond : 0 < c ∧ 27 ≤ T
    case neg => rw [if_neg hcond] at hout; cases hout
    rw [if_pos hcond] at hout
    cases hout
    refine ⟨⟨T, rfl, hcond.2⟩, ?_⟩
    intro k hk
    subst hk
    simp only [resolveFinalConvLength] at hpos
    omega
  · rintro ⟨⟨T, rfl, hT⟩, hfix⟩
    refine ⟨_, mk_ok_of c nC fcl T "mean" 8 2 16 64
      ⟨1, 16, 1, ((T + 1) / 4 + 1) / 8⟩ (Or.inr rfl)
      ⟨by omega, hc, by omega, by omega⟩ ?_ ?_⟩
    · rw [sepEmbed_default_eq, if_pos ⟨hc, hT⟩]
    · cases fcl with
      | auto =>
        show 0 < 16 * 1 * (((T + 1) / 4 + 1) / 8)
        omega
      | fixed k =>
        have := hfix k rfl
        show 0 < 16 * 1 * k
        omega

/-- C1 witness: an integer `final_conv_length` with a valid
`input_time_length`. -/
theorem C1_amended_witness :
    (∃ m, SiameseEEGNet.mk 3 2 (FinalConvLength.fixed 5) (some 30) "mean"
        8 2 16 64 = Except.ok m)
      ↔ (∃ T, (some 30 : Option Nat) = some T ∧ 27 ≤ T)
        ∧ ∀ k, FinalConvLength.fixed 5 = FinalConvLength.fixed k → 1 ≤ k :=
  C1_amended_success_iff 3 2 (FinalConvLength.fixed 5) (some 30) (by decide)

/-- C2: for a model constructed with `final_conv_length='auto'` and an integer
`input_time_length`, the stored `final_conv_length` equals dim 3 (the time
axis) of `sep_conv(embed(x1))` where `x1` has shape
`(1, in_chans, input_time_length, 1)` (the all-ones sample tensor of
lines 99-100; its values do not affect the axis sizes), and the classifier
convolution's kernel time extent is exactly that value. -/
theorem C2_auto_final_conv_length (c nC T : Nat) (pm : String)
    (F1 D F2 kl : Nat) (m : Model)
    (hmk : SiameseEEGNet.mk c nC FinalConvLength.auto (some T) pm F1 D F2 kl
        = Except.ok m) :
    ∃ out, (embedShape c F1 D kl ⟨1, c, T, 1⟩).bind (sepConvShape F1 D F2)
        = some out
      ∧ m.final_conv_length = out.w
      ∧ m.cls_kernel_w = out.w
      ∧ m.cls_kernel_h = m.n_out_virtual_chans := by
  obtain ⟨T', out, hT', hout, rfl, hpos⟩ := mk_ok_inv _ _ _ _ _ _ _ _ _ _ hmk
  cases hT'
  exact ⟨out, hout, rfl, rfl, rfl⟩

/-- C2 witness: `in_chans = 3`, `input_time_length = 100`, default
hyperparameters; the sample pass has final time axis 3. -/
theorem C2_witness :
    ∃ out, (embedShape 3 8 2 64 ⟨1, 3, 100, 1⟩).bind (sepConvShape 8 2 16)
        = some out
      ∧ (⟨3, 2, 8, 2, 16, 64, "mean", 3, some 100, 1, 1, 3, 1⟩ :
          Model).final_conv_length = out.w
      ∧ (⟨3, 2, 8, 2, 16, 64, "mean", 3, some 100, 1, 1, 3, 1⟩ :
          Model).cls_kernel_w = out.w
      ∧ (⟨3, 2, 8, 2, 16, 64, "mean", 3, some 100, 1, 1, 3, 1⟩ :
          Model).cls_kernel_h
        = (⟨3, 2, 8, 2, 16, 64, "mean", 3, some 100, 1, 1, 3, 1⟩ :
          Model).n_out_virtual_chans :=
  C2_auto_final_conv_length 3 2 100 "mean" 8 2 16 64
    ⟨3, 2, 8, 2, 16, 64, "mean", 3, some 100, 1, 1, 3, 1⟩ rfl

/-- C5: for a model constructed with `final_conv_length='auto'` (default
hyperparameters), the classifier output shape is `[batch, n_classes]` for
every batch whose time length equals the construction-time
`input_time_length` — both on the single-stream path and on the joint-mode
target slice (whose shape is the same `(batch, in_chans, T, 1)`). -/
theorem C5_cls_output_shape (c nC T b : Nat) (m : Model)
    (hmk : SiameseEEGNet.mk c nC FinalConvLength.auto (some T) "mean"
        8 2 16 64 = Except.ok m) :
    singleForwardShape m ⟨b, c, T, 1⟩ = some [b, nC]
    ∧ singleForwardShape m (streamSliceShape b 2 c T 0) = some [b, nC] := by
  obtain ⟨T', out, hT', hout, rfl, hpos⟩ := mk_ok_inv _ _ _ _ _ _ _ _ _ _ hmk
  cases hT'
  rw [sepEmbed_default_eq] at hout
  by_cases hcond : 0 < c ∧ 27 ≤ T
  case neg => rw [if_neg hcond] at hout; cases hout
  rw [if_pos hcond] at hout
  cases hout
  have H : singleForwardShape
      ⟨c, nC, 8, 2, 16, 64, "mean",
        resolveFinalConvLength FinalConvLength.auto
          (Shape4.mk 1 16 1 (((T + 1) / 4 + 1) / 8)).w,
        some T, (Shape4.mk 1 16 1 (((T + 1) / 4 + 1) / 8)).h,
        (Shape4.mk 1 16 1 (((T + 1) / 4 + 1) / 8)).h,
        resolveFinalConvLength FinalConvLength.auto
          (Shape4.mk 1 16 1 (((T + 1) / 4 + 1) / 8)).w, 1⟩
      ⟨b, c, T, 1⟩ = some [b, nC] := by
    show ((embedShape c 8 2 64 ⟨b, c, T, 1⟩).bind (sepConvShape 8 2 16)).bind
        (clsShape 16 nC 1 (((T + 1) / 4 + 1) / 8)) = some [b, nC]
    rw [sepEmbed_default_eq, if_pos hcond, Option.some_bind]
    exact clsShape_eval b nC (((T + 1) / 4 + 1) / 8)
  exact ⟨H, H⟩

/-- C5 witness: `in_chans = 3`, `input_time_length = 100`, batch 2, two
classes. -/
theorem C5_witness :
    singleForwardShape ⟨3, 2, 8, 2, 16, 64, "mean", 3, some 100, 1, 1, 3, 1⟩
        ⟨2, 3, 100, 1⟩ = some [2, 2]
    ∧ singleForwardShape ⟨3, 2, 8, 2, 16, 64, "mean", 3, some 100, 1, 1, 3, 1⟩
        (streamSliceShape 2 2 3 100 0) = some [2, 2] :=
  C5_cls_output_shape 3 2 100 2
    ⟨3, 2, 8, 2, 16, 64, "mean", 3, some 100, 1, 1, 3, 1⟩ rfl

/-- C7: the two stream slices of a joint-mode input of shape
`(batch, 2, in_chans, time)` have the same shape `(batch, in_chans, time, 1)`,
so the two embeddings have identical shape for any hyperparameters; under the
default hyperparameters the common shape is `(batch, 16, 1, (time + 1) / 4)`
whenever the pass is shape-valid. -/
theorem C7_embedding_shapes_identical (c b t : Nat) :
    (∀ F1 D kl, embedShape c F1 D kl (streamSliceShape b 2 c t 0)
        = embedShape c F1 D kl (streamSliceShape b 2 c t 1))
    ∧ (0 < c → 3 ≤ t →
        embedShape c 8 2 64 (streamSliceShape b 2 c t 0)
            = some ⟨b, 16, 1, (t + 1) / 4⟩
          ∧ embedShape c 8 2 64 (streamSliceShape b 2 c t 1)
            = some ⟨b, 16, 1, (t + 1) / 4⟩) := by
  refine ⟨fun F1 D kl => rfl, fun hc ht => ?_⟩
  have H : embedShape c 8 2 64 ⟨b, c, t, 1⟩ = some ⟨b, 16, 1, (t + 1) / 4⟩ := by
    rw [embedShape_default_eq, if_pos ⟨hc, ht⟩]
  exact ⟨H, H⟩

/-- C7 witness: `in_chans = 3`, batch 2, time 10. -/
theorem C7_witness :
    embedShape 3 8 2 64 (streamSliceShape 2 2 3 10 0) = some ⟨2, 16, 1, 2⟩
    ∧ embedShape 3 8 2 64 (streamSliceShape 2 2 3 10 1) = some ⟨2, 16, 1, 2⟩ :=
  (C7_embedding_shapes_identical 3 2 10).2 (by decide) (by decide)

/-- C9: (a) for any hyperparameters, a successful `sep_conv(embed(·))` pass on
an input of shape `(b, in_chans, t, 1)` has height 1 — the spatial kernel
`(in_chans, 1)` with zero padding collapses the electrode axis, so
`n_out_virtual_chans = 1`; (b) under the default hyperparameters the
auto-computed `final_conv_length` is `((T + 1) / 4 + 1) / 8` in integer floor
division. -/
theorem C9_virtual_chans_one_and_auto_formula :
    (∀ c F1 D F2 kl b t out,
        (embedShape c F1 D kl ⟨b, c, t, 1⟩).bind (sepConvShape F1 D F2)
          = some out → out.h = 1)
    ∧ ∀ c nC T m,
        SiameseEEGNet.mk c nC FinalConvLength.auto (some T) "mean" 8 2 16 64
          = Except.ok m
        → m.final_conv_length = ((T + 1) / 4 + 1) / 8 := by
  refine ⟨fun c F1 D F2 kl b t out h =>
    sepEmbed_h_one c F1 D F2 kl b t out h, ?_⟩
  intro c nC T m hmk
  obtain ⟨T', out, hT', hout, rfl, hpos⟩ := mk_ok_inv _ _ _ _ _ _ _ _ _ _ hmk
  cases hT'
  rw [sepEmbed_default_eq] at hout
  by_cases hcond : 0 < c ∧ 27 ≤ T
  case neg => rw [if_neg hcond] at hout; cases hout
  rw [if_pos hcond] at hout
  cases hout
  rfl

/-- C9 witness: `in_chans = 3`, `input_time_length = 100`. -/
theorem C9_witness :
    (⟨1, 16, 1, 3⟩ : Shape4).h = 1
    ∧ (⟨3, 2, 8, 2, 16, 64, "mean", 3, some 100, 1, 1, 3, 1⟩ :
        Model).final_conv_length = ((100 + 1) / 4 + 1) / 8 :=
  ⟨C9_virtual_chans_one_and_auto_formula.1 3 8 2 16 64 1 100
      ⟨1, 16, 1, 3⟩ (by decide),
    C9_virtual_chans_one_and_auto_formula.2 3 2 100
      ⟨3, 2, 8, 2, 16, 64, "mean", 3, some 100, 1, 1, 3, 1⟩ rfl⟩

/-- C10: the `_squeeze_final_output` assertion (dim 3 equals 1) never fails on
the classifier path of a constructed model: any `sep_conv(embed(·))` output on
an input of shape `(b, in_chans, t, 1)` has height 1, the classifier kernel
height is the measured `n_out_virtual_chans = 1`, so the final convolution's
dim 2 is 1 and `_transpose_1_0` moves it to dim 3 before the assertion. -/
theorem C10_squeeze_assertion_never_fails (c nC : Nat) (fcl : FinalConvLength)
    (itl : Option Nat) (pm : String) (F1 D F2 kl : Nat) (m : Model)
    (hmk : SiameseEEGNet.mk c nC fcl itl pm F1 D F2 kl = Except.ok m)
    (b t : Nat) (s2 s3 : Shape4)
    (hpath : (embedShape m.in_chans m.F1 m.D m.kernel_length
        ⟨b, m.in_chans, t, 1⟩).bind (sepConvShape m.F1 m.D m.F2) = some s2)
    (hconv : conv2dShape m.F2 m.n_classes m.n_out_virtual_chans
        m.final_conv_length 0 0 s2 = some s3) :
    (transpose_1_0_shape s3).w = 1
    ∧ squeezeShape (transpose_1_0_shape s3) ≠ none
    ∧ clsShape m.F2 m.n_classes m.n_out_virtual_chans m.final_conv_length s2
        ≠ none := by
  have hnv : m.n_out_virtual_chans = 1 := by
    obtain ⟨T, out, hT, hout, rfl, hpos⟩ := mk_ok_inv _ _ _ _ _ _ _ _ _ _ hmk
    exact sepEmbed_h_one _ _ _ _ _ _ _ _ hout
  have hs2 : s2.h = 1 := sepEmbed_h_one _ _ _ _ _ _ _ _ hpath
  have hs3 : s3.h = 1 := by
    unfold conv2dShape at hconv
    split_ifs at hconv with hcnd
    · cases hconv
      show s2.h + 2 * 0 - m.n_out_virtual_chans + 1 = 1
      omega
  have hw : (transpose_1_0_shape s3).w = 1 := hs3
  refine ⟨hw, ?_, ?_⟩
  · unfold squeezeShape
    rw [if_pos hw]
    exact Option.some_ne_none _
  · unfold clsShape
    rw [hconv]
    show squeezeShape (transpose_1_0_shape s3) ≠ none
    unfold squeezeShape
    rw [if_pos hw]
    exact Option.some_ne_none _

/-- C10 witness: a constructed model with `in_chans = 3`,
`input_time_length = 100`, a batch of 2 at time 100. -/
theorem C10_witness :
    (transpose_1_0_shape ⟨2, 2, 1, 1⟩).w = 1
    ∧ squeezeShape (transpose_1_0_shape ⟨2, 2, 1, 1⟩) ≠ none
    ∧ clsShape (⟨3, 2, 8, 2, 16, 64, "mean", 3, some 100, 1, 1, 3, 1⟩ :
          Model).F2
        (⟨3, 2, 8, 2, 16, 64, "mean", 3, some 100, 1, 1, 3, 1⟩ : Model).n_classes
        (⟨3, 2, 8, 2, 16, 64, "mean", 3, some 100, 1, 1, 3, 1⟩ :
          Model).n_out_virtual_chans
        (⟨3, 2, 8, 2, 16, 64, "mean", 3, some 100, 1, 1, 3, 1⟩ :
          Model).final_conv_length
        ⟨2, 16, 1, 3⟩ ≠ none :=
  C10_squeeze_assertion_never_fails 3 2 FinalConvLength.auto (some 100) "mean"
    8 2 16 64 ⟨3, 2, 8, 2, 16, 64, "mean", 3, some 100, 1, 1, 3, 1⟩ rfl
    2 100 ⟨2, 16, 1, 3⟩ ⟨2, 2, 1, 1⟩ (by decide) (by decide)
